import Mathlib

/-!
Shallow embedding of `src/backup/backup.service.ts` from the
`docker-backup-tool` repository: label-driven backup configuration
extraction (`extractBackupConfig`), in-container command execution with
content-based failure detection (`execInContainer`), the per-container
backup pipeline (`executeBackup`), retention cleanup (`cleanupOldBackups`)
and the per-tick driver (`runBackups`).

Modelling conventions:
* A JavaScript number that can be `NaN` is an `Option Int` with `none`
  standing for `NaN` (`parseInt` never yields a fractional value).
* A JavaScript string value that can be `undefined` is an `Option String`
  with `none` standing for `undefined`.
* The label map of a container is an association list.
* Filesystem state relevant to cleanup is the directory listing: a list of
  entries with a name and a modification time. A removal oracle tells which
  paths `fs.remove` would fail on.
* `Array.prototype.sort` is stable (ECMAScript 2019); a stable sort for a
  given comparator has a unique result, so it is modelled by insertion
  sort, which is also stable.
-/

namespace DockerBackupTool

/-- Check that the first character list is an initial segment of the second. -/
def leadsWith : List Char → List Char → Bool
  | [], _ => true
  | _ :: _, [] => false
  | c :: cs, d :: ds => c == d && leadsWith cs ds

/-- Occurrence of `sub` as a contiguous segment of the second list. -/
def hasSubstring (sub : List Char) : List Char → Bool
  | [] => sub.isEmpty
  | c :: rest => leadsWith sub (c :: rest) || hasSubstring sub rest

/-- Model of JavaScript `s.includes(sub)` (literal substring search). -/
def jsIncludes (s sub : String) : Bool :=
  hasSubstring sub.toList s.toList

/-- JavaScript truthiness of a possibly-`undefined` string: `undefined` and
the empty string are falsy, every other string is truthy. -/
def jsTruthy : Option String → Bool
  | none => false
  | some s => !s.isEmpty

/-- Label map of a container, as an association list. -/
abbrev Labels := List (String × String)

/-- Label lookup: `labels[key]`, `none` when the key is absent. -/
def getLabel (labels : Labels) (key : String) : Option String :=
  (labels.find? (fun kv => kv.1 == key)).map (fun kv => kv.2)

/-- The slice of `Dockerode.ContainerInfo` the service reads. -/
structure ContainerInfo where
  Id : String
  Names : List String
  Labels : Labels
deriving Repr, DecidableEq

/-- Value of a non-empty run of decimal digits. -/
def digitsVal (ds : List Char) : Nat :=
  ds.foldl (fun acc c => acc * 10 + (c.toNat - 48)) 0

/-- Leading decimal digits of a character list: `none` (NaN) when the list
does not start with a digit. -/
def leadingDigits (cs : List Char) : Option Int :=
  let ds := cs.takeWhile (fun c => c.isDigit)
  if ds.isEmpty then none else some (digitsVal ds : Int)

/-- Model of JavaScript `parseInt(s)` with radix 10: skip leading
whitespace, accept an optional sign, parse the longest run of leading
digits; `none` models `NaN` when no digit is found. (The `0x` hexadecimal
form accepted by `parseInt` is not modelled; no claim involves it.) -/
def jsParseInt (s : String) : Option Int :=
  let cs := s.toList.dropWhile (fun c => c.isWhitespace)
  match cs with
  | '-' :: rest => (leadingDigits rest).map (fun n => -n)
  | '+' :: rest => leadingDigits rest
  | _ => leadingDigits cs

/-- JavaScript `str.replace(pattern, '')` with a plain-string pattern
replaces only the first occurrence; here for a one-character pattern. -/
def replaceFirst (target : Char) : List Char → List Char
  | [] => []
  | c :: rest => if c == target then rest else c :: replaceFirst target rest

/-- Per-container backup configuration, as in `backup.interfaces.ts`.
Fields typed `string` there can hold `undefined` at runtime (label absent),
hence `Option String`; `retention` can hold `NaN`, hence `Option Int`. -/
structure BackupConfig where
  containerId : String
  containerName : String
  enabled : Bool
  command : Option String
  location : String
  schedule : Option String
  retention : Option Int
  preCommand : Option String
  postCommand : Option String
deriving Repr, DecidableEq

/-- Model of `extractBackupConfig(container)`. `labelPfx` is the configured
label namespace. On `retention` the source computes
`parseInt(labels[key]) ?? 7`: `parseInt` returns a number (possibly `NaN`),
never `null` or `undefined`, so the nullish-coalescing `?? 7` never fires
and the result is exactly the `parseInt` value — `NaN` (`none`) when the
label is absent (`parseInt(undefined)` parses the string `"undefined"`) or
does not start with a digit. -/
def extractBackupConfig (labelPfx : String) (container : ContainerInfo) : BackupConfig :=
  let labels := container.Labels
  { containerId := container.Id
    containerName := String.mk (replaceFirst '/' (container.Names.headD "").toList)
    enabled := getLabel labels (labelPfx ++ ".backup") == some "true"
    command := getLabel labels (labelPfx ++ ".command")
    location := (getLabel labels (labelPfx ++ ".location")).getD "/tmp/backup"
    schedule := getLabel labels (labelPfx ++ ".schedule")
    retention := jsParseInt ((getLabel labels (labelPfx ++ ".retention")).getD "undefined")
    preCommand := getLabel labels (labelPfx ++ ".pre_command")
    postCommand := getLabel labels (labelPfx ++ ".post_command") }

/-- A chunk emitted by the exec output stream: either a primitive string or
a non-string value such as a `Buffer` (its payload is carried but the
source ignores it, since only `typeof data === 'string'` chunks are kept). -/
inductive Chunk where
  | str (data : String)
  | buf (data : String)
deriving Repr, DecidableEq

/-- Environment of one `execInContainer` call: the error (if any) passed to
the `container.exec` callback, the error (if any) passed to the
`exec.start` callback, and the data chunks the stream emits before `end`. -/
structure ExecEnv where
  execErr : Option String
  startErr : Option String
  chunks : List Chunk
deriving Repr, DecidableEq

/-- Output accumulation of the stream handler: only chunks that are
primitive strings are appended (`if (typeof data === 'string')`). -/
def accumOutput (chunks : List Chunk) : String :=
  chunks.foldl
    (fun out c =>
      match c with
      | Chunk.str s => out ++ s
      | Chunk.buf _ => out)
    ""

/-- Model of `execInContainer(container, command)`: reject with the exec or
start error when present; otherwise accumulate the stream output and, at
`end`, reject with the accumulated output when it contains `"Error"` or
`"error"`, else resolve with the output. -/
def execInContainer (env : ExecEnv) : Except String String :=
  match env.execErr with
  | some e => Except.error e
  | none =>
    match env.startErr with
    | some e => Except.error e
    | none =>
      let output := accumOutput env.chunks
      if jsIncludes output "Error" || jsIncludes output "error" then Except.error output
      else Except.ok output

/-- Whether an `execInContainer` call resolves. -/
def execOk (env : ExecEnv) : Bool :=
  match execInContainer env with
  | Except.ok _ => true
  | Except.error _ => false

/-- A directory entry as `cleanupOldBackups` sees it: the file name and the
`fs.statSync(...).mtime` value (milliseconds since the epoch). -/
structure FileEntry where
  name : String
  mtime : Int
deriving Repr, DecidableEq

/-- The source comparator `(a, b) => b.mtime.getTime() - a.mtime.getTime()`
orders by modification time, newest first. -/
def newerEq (a b : FileEntry) : Prop := b.mtime ≤ a.mtime

instance : DecidableRel newerEq := fun a b => Int.decLe b.mtime a.mtime

instance : IsTotal FileEntry newerEq := ⟨fun a b => le_total b.mtime a.mtime⟩

instance : IsTrans FileEntry newerEq := ⟨fun _ _ _ h1 h2 => le_trans h2 h1⟩

/-- Start-index resolution of JavaScript `arr.slice(start)`: a negative
start counts from the end of the array. -/
def jsSliceStart (start : Int) (len : Nat) : Nat :=
  if 0 ≤ start then min start.toNat len else len - min (-start).toNat len

/-- JavaScript `arr.slice(start)` with a single argument. -/
def jsSlice {α : Type _} (start : Int) (l : List α) : List α :=
  l.drop (jsSliceStart start l.length)

/-- Candidate artifacts of a directory, sorted: the source filters entries
whose name contains the `_` separator (`file.includes('_')`) and sorts them
by modification time, newest first (stable sort, modelled by insertion
sort). -/
def backupFilesOf (files : List FileEntry) : List FileEntry :=
  List.insertionSort newerEq (files.filter (fun f => jsIncludes f.name "_"))

/-- The files `slice(retention)` marks for deletion; empty when the
candidate count does not exceed the retention. -/
def filesToDelete (retention : Int) (files : List FileEntry) : List FileEntry :=
  let backupFiles := backupFilesOf files
  if (backupFiles.length : Int) > retention then jsSlice retention backupFiles else []

/-- The deletion loop `for (const file of filesToDelete) await fs.remove(...)`.
A failing `fs.remove` throws; the only handler is the `try/catch` around the
whole function body, so the loop stops at the first failing file. Returns
(files on which removal was attempted, files actually removed). -/
def deleteLoop (removeFails : String → Bool) :
    List FileEntry → List FileEntry × List FileEntry
  | [] => ([], [])
  | f :: rest =>
    if removeFails f.name then ([f], [])
    else
      let ad := deleteLoop removeFails rest
      (f :: ad.1, f :: ad.2)

/-- Outcome of one `cleanupOldBackups` run: the directory listing afterwards
and the files on which `fs.remove` was attempted. -/
structure CleanupResult where
  remaining : List FileEntry
  attempted : List FileEntry
deriving Repr, DecidableEq

/-- Model of `cleanupOldBackups(backupPath, retention)`: list the directory,
keep entries whose name contains `_`, sort newest first; when the candidate
count exceeds `retention`, delete the candidates `slice(retention)` yields,
stopping at the first failed removal (its exception lands in the
function-level `catch`); otherwise touch nothing. The directory afterwards
holds the original entries minus the successfully removed ones. -/
def cleanupOldBackups (removeFails : String → Bool) (retention : Int)
    (files : List FileEntry) : CleanupResult :=
  let backupFiles := backupFilesOf files
  if (backupFiles.length : Int) > retention then
    let toDel := jsSlice retention backupFiles
    let ad := deleteLoop removeFails toDel
    { remaining := files.filter (fun f => !(ad.2.any (fun d => d.name == f.name)))
      attempted := ad.1 }
  else
    { remaining := files, attempted := [] }

/-- Steps of the `executeBackup` pipeline, in source order. `ensureDir` is
the host-directory creation preceding the `try` block; `cleanup` is the
final `cleanupOldBackups` call. -/
inductive Step where
  | ensureDir
  | pre
  | main
  | copy
  | post
  | cleanup
deriving Repr, DecidableEq

/-- Environment of one `executeBackup` call: the exec environments of the
pre-command, main command and post-command sessions, and whether the
`docker cp` extraction succeeds. -/
structure BackupEnv where
  preEnv : ExecEnv
  mainEnv : ExecEnv
  copyOk : Bool
  postEnv : ExecEnv
deriving Repr, DecidableEq

/-- Model of `executeBackup(config)`: create the host directory, then run
pre-command (when truthy), main command (when truthy), the `docker cp`
extraction, and post-command (when truthy); the first rejection jumps to
the `catch`, which returns `false`. When every step resolves,
`cleanupOldBackups` runs (it never throws: it catches internally) and the
call returns `true`. The result pairs the list of attempted steps, in
order, with the returned boolean. -/
def executeBackup (config : BackupConfig) (env : BackupEnv) : List Step × Bool :=
  let t0 := [Step.ensureDir]
  if jsTruthy config.preCommand && !execOk env.preEnv then (t0 ++ [Step.pre], false)
  else
    let t1 := t0 ++ (if jsTruthy config.preCommand then [Step.pre] else [])
    if jsTruthy config.command && !execOk env.mainEnv then (t1 ++ [Step.main], false)
    else
      let t2 := t1 ++ (if jsTruthy config.command then [Step.main] else [])
      if !env.copyOk then (t2 ++ [Step.copy], false)
      else
        let t3 := t2 ++ [Step.copy]
        if jsTruthy config.postCommand && !execOk env.postEnv then (t3 ++ [Step.post], false)
        else
          let t4 := t3 ++ (if jsTruthy config.postCommand then [Step.post] else [])
          (t4 ++ [Step.cleanup], true)

/-- All steps of the pipeline that are present resolve. -/
def stepsAllOk (config : BackupConfig) (env : BackupEnv) : Bool :=
  (!jsTruthy config.preCommand || execOk env.preEnv) &&
  (!jsTruthy config.command || execOk env.mainEnv) &&
  env.copyOk &&
  (!jsTruthy config.postCommand || execOk env.postEnv)

/-- A discovered container is handed to `executeBackup` exactly when its
extracted config is enabled and has a truthy command. -/
def processed (labelPfx : String) (container : ContainerInfo) : Bool :=
  (extractBackupConfig labelPfx container).enabled &&
  jsTruthy (extractBackupConfig labelPfx container).command

/-- Observable outcome of one `runBackups` tick: the per-container results
pushed into `results`, the container names `executeBackup` was invoked for,
and the container names whose host directory was created. -/
structure RunOutcome where
  results : List (String × Bool)
  invoked : List String
  dirsCreated : List String
deriving Repr, DecidableEq

/-- One iteration of the per-container loop of `runBackups()`: extract the
config; skip the container when it is not enabled or has no truthy command
(`continue`, nothing recorded); otherwise invoke `executeBackup` (which
creates the host directory via its `ensureDir` step) and record the
result. `envOf` supplies each container's execution environment. -/
def runBackupsStep (labelPfx : String) (envOf : ContainerInfo → BackupEnv)
    (acc : RunOutcome) (container : ContainerInfo) : RunOutcome :=
  let config := extractBackupConfig labelPfx container
  if !config.enabled then acc
  else if !(jsTruthy config.command) then acc
  else
    let r := executeBackup config (envOf container)
    { results := acc.results ++ [(config.containerName, r.2)]
      invoked := acc.invoked ++ [config.containerName]
      dirsCreated := acc.dirsCreated ++
        (if Step.ensureDir ∈ r.1 then [config.containerName] else []) }

/-- Model of one `runBackups()` tick over the discovered containers. -/
def runBackups (labelPfx : String) (envOf : ContainerInfo → BackupEnv)
    (containers : List ContainerInfo) : RunOutcome :=
  containers.foldl (runBackupsStep labelPfx envOf) ⟨[], [], []⟩

/-! ### Helper lemmas -/

theorem deleteLoop_no_fail (l : List FileEntry) :
    deleteLoop (fun _ => false) l = (l, l) := by
  induction l with
  | nil => rfl
  | cons f rest ih => simp [deleteLoop, ih]

theorem deleteLoop_attempted (removeFails : String → Bool) (l : List FileEntry) :
    (deleteLoop removeFails l).1 =
      l.take (l.findIdx (fun f => removeFails f.name) + 1) := by
  induction l with
  | nil => rfl
  | cons f rest ih =>
    by_cases h : removeFails f.name
    · simp [deleteLoop, h, List.findIdx_cons]
    · simp [deleteLoop, h, List.findIdx_cons, ih]

theorem jsSlice_natCast {α : Type _} (R : Nat) (l : List α) :
    jsSlice (R : Int) l = l.drop R := by
  unfold jsSlice jsSliceStart
  rw [if_pos (Int.natCast_nonneg R), Int.toNat_natCast]
  rcases le_total R l.length with h | h
  · rw [min_eq_left h]
  · rw [min_eq_right h, List.drop_eq_nil_of_le le_rfl,
      List.drop_eq_nil_of_le h]

theorem backupFilesOf_perm (files : List FileEntry) :
    (backupFilesOf files).Perm (files.filter (fun f => jsIncludes f.name "_")) :=
  List.perm_insertionSort _ _

theorem backupFilesOf_sorted (files : List FileEntry) :
    List.Pairwise (fun a b => b.mtime ≤ a.mtime) (backupFilesOf files) :=
  List.sorted_insertionSort newerEq (files.filter (fun f => jsIncludes f.name "_"))

theorem accumOutput_all_buf (chunks : List Chunk)
    (h : ∀ c ∈ chunks, ∃ s, c = Chunk.buf s) :
    accumOutput chunks = "" := by
  have general :
      ∀ (l : List Chunk), (∀ c ∈ l, ∃ s, c = Chunk.buf s) → ∀ acc : String,
        l.foldl
          (fun out c =>
            match c with
            | Chunk.str s => out ++ s
            | Chunk.buf _ => out)
          acc = acc := by
    intro l
    induction l with
    | nil => intro _ acc; rfl
    | cons c rest ih =>
      intro hl acc
      obtain ⟨s, rfl⟩ := hl c (List.mem_cons_self c rest)
      simpa using ih (fun d hd => hl d (List.mem_cons_of_mem _ hd)) acc
  exact general chunks h ""

/-- Cleanup touches nothing when the candidate count does not exceed the
retention. -/
theorem cleanup_noop (removeFails : String → Bool) (retention : Int)
    (files : List FileEntry)
    (h : ((backupFilesOf files).length : Int) ≤ retention) :
    cleanupOldBackups removeFails retention files = ⟨files, []⟩ := by
  simp only [cleanupOldBackups]
  rw [if_neg (not_lt.mpr h)]

/-- With no removal failures and more candidates than the retention,
cleanup attempts (and removes) exactly the candidates beyond index `R` of
the sorted candidate list, and the directory keeps exactly the other
entries (name-keyed removal coincides with entry-keyed removal because the
directory names are distinct). -/
theorem cleanup_exceed_spec (files : List FileEntry) (R : Nat)
    (hnames : (files.map FileEntry.name).Nodup)
    (hlen : R < (backupFilesOf files).length) :
    cleanupOldBackups (fun _ => false) (R : Int) files =
      { remaining := files.filter (fun f => decide (f ∉ (backupFilesOf files).drop R))
        attempted := (backupFilesOf files).drop R } := by
  have hcond : ((backupFilesOf files).length : Int) > (R : Int) := by exact_mod_cast hlen
  simp only [cleanupOldBackups]
  rw [if_pos hcond, jsSlice_natCast, deleteLoop_no_fail]
  have hD : ∀ d ∈ (backupFilesOf files).drop R, d ∈ files := fun d hd =>
    List.mem_of_mem_filter ((backupFilesOf_perm files).subset (List.drop_subset R _ hd))
  congr 1
  apply List.filter_congr
  intro f hf
  by_cases hfD : f ∈ (backupFilesOf files).drop R
  · have hany : ((backupFilesOf files).drop R).any (fun d => d.name == f.name) = true :=
      List.any_eq_true.mpr ⟨f, hfD, by simp⟩
    simp [hany, hfD]
  · have hany : ((backupFilesOf files).drop R).any (fun d => d.name == f.name) = false := by
      rw [List.any_eq_false]
      intro d hd
      simp only [beq_iff_eq]
      intro hname
      exact hfD ((List.inj_on_of_nodup_map hnames (hD d hd) hf hname) ▸ hd)
    simp [hany, hfD]

/-- With no removal failures and more candidates than the retention, the
remaining directory contents are (a permutation of) the non-candidate
entries together with the `R` first entries of the sorted candidate list. -/
theorem cleanup_remaining_perm (files : List FileEntry) (R : Nat)
    (hnames : (files.map FileEntry.name).Nodup)
    (hlen : R < (backupFilesOf files).length) :
    (cleanupOldBackups (fun _ => false) (R : Int) files).remaining.Perm
      (files.filter (fun f => !(jsIncludes f.name "_"))
        ++ (backupFilesOf files).take R) := by
  rw [cleanup_exceed_spec files R hnames hlen]
  have hfiles_nodup : files.Nodup := List.Nodup.of_map _ hnames
  have hSnodup : (backupFilesOf files).Nodup :=
    (backupFilesOf_perm files).nodup_iff.mpr (hfiles_nodup.filter _)
  have hdisj : ∀ a ∈ (backupFilesOf files).take R, a ∉ (backupFilesOf files).drop R := by
    have h := hSnodup
    rw [← List.take_append_drop R (backupFilesOf files), List.nodup_append] at h
    exact fun a ha => h.2.2 ha
  have hDsubS : ∀ d ∈ (backupFilesOf files).drop R, d ∈ backupFilesOf files :=
    fun d hd => List.drop_subset R _ hd
  have hperm1 :
      (files.filter (fun f => decide (f ∉ (backupFilesOf files).drop R))).Perm
        ((files.filter (fun f => jsIncludes f.name "_")
            ++ files.filter (fun f => !(jsIncludes f.name "_"))).filter
          (fun f => decide (f ∉ (backupFilesOf files).drop R))) :=
    ((List.filter_append_perm _ files).symm).filter _
  rw [List.filter_append] at hperm1
  have hcands :
      ((files.filter (fun f => jsIncludes f.name "_")).filter
          (fun f => decide (f ∉ (backupFilesOf files).drop R))).Perm
        ((backupFilesOf files).take R) := by
    have hp2 :
        ((files.filter (fun f => jsIncludes f.name "_")).filter
            (fun f => decide (f ∉ (backupFilesOf files).drop R))).Perm
          (((backupFilesOf files).take R ++ (backupFilesOf files).drop R).filter
            (fun f => decide (f ∉ (backupFilesOf files).drop R))) := by
      apply List.Perm.filter
      rw [List.take_append_drop R (backupFilesOf files)]
      exact (backupFilesOf_perm files).symm
    rw [List.filter_append] at hp2
    have htake :
        ((backupFilesOf files).take R).filter
            (fun f => decide (f ∉ (backupFilesOf files).drop R))
          = (backupFilesOf files).take R := by
      apply List.filter_eq_self.mpr
      intro a ha
      simpa using hdisj a ha
    have hdrop :
        ((backupFilesOf files).drop R).filter
            (fun f => decide (f ∉ (backupFilesOf files).drop R)) = [] := by
      apply List.filter_eq_nil_iff.mpr
      intro a ha
      simpa using ha
    rw [htake, hdrop, List.append_nil] at hp2
    exact hp2
  have hnon :
      (files.filter (fun f => !(jsIncludes f.name "_"))).filter
          (fun f => decide (f ∉ (backupFilesOf files).drop R))
        = files.filter (fun f => !(jsIncludes f.name "_")) := by
    apply List.filter_eq_self.mpr
    intro a ha
    have hnc : jsIncludes a.name "_" = false := by
      have := (List.mem_filter.mp ha).2
      simpa using this
    simp only [decide_eq_true_eq]
    intro haD
    have : a ∈ files.filter (fun f => jsIncludes f.name "_") :=
      (backupFilesOf_perm files).subset (hDsubS a haD)
    have := (List.mem_filter.mp this).2
    rw [hnc] at this
    exact Bool.false_ne_true this
  refine hperm1.trans ?_
  rw [hnon]
  exact (hcands.append_right _).trans List.perm_append_comm

/-! ### Claims about configuration extraction -/

/-- C1: the claim says `extractBackupConfig` yields `retention = 7` whenever
the `retention` label is missing or non-numeric. The code computes
`parseInt(labels[key]) ?? 7`, and `parseInt` returns `NaN` (never `null` or
`undefined`) on those inputs, so the nullish-coalescing default never
fires: the extracted retention is `NaN` (modelled `none`), not `7`. This
evaluates the code at both failing inputs. -/
theorem C1_retention_default_never_applied :
    (extractBackupConfig "docker-backup-tool"
        ⟨"cid1", ["/mysql-app"], [("docker-backup-tool.backup", "true")]⟩).retention = none
    ∧ (extractBackupConfig "docker-backup-tool"
        ⟨"cid1", ["/mysql-app"],
          [("docker-backup-tool.backup", "true"),
           ("docker-backup-tool.retention", "weekly")]⟩).retention = none
    ∧ (none : Option Int) ≠ some 7 := by decide

/-- C5: the claim says the `retention ≥ 1` bound is enforced at extraction
time. The code applies no bound at all: a `retention` label of `"0"` is
extracted as `0 < 1` (and a missing label is extracted as `NaN`). This
evaluates the code at the failing input. -/
theorem C5_retention_lower_bound_not_enforced :
    (extractBackupConfig "docker-backup-tool"
        ⟨"cid1", ["/db"],
          [("docker-backup-tool.backup", "true"),
           ("docker-backup-tool.retention", "0")]⟩).retention = some 0
    ∧ ¬(1 ≤ (0 : Int)) := by decide

/-! ### Claims about in-container execution -/

/-- C6: with the exec session set up successfully (no error in the `exec`
or `start` callbacks), `execInContainer` rejects with the accumulated
output exactly when that output contains `"Error"` or `"error"`, and
resolves with the output exactly when it contains neither. -/
theorem C6_execInContainer_content_detection (env : ExecEnv)
    (hexec : env.execErr = none) (hstart : env.startErr = none) :
    (execInContainer env = Except.error (accumOutput env.chunks)
      ↔ (jsIncludes (accumOutput env.chunks) "Error"
          || jsIncludes (accumOutput env.chunks) "error") = true)
    ∧ (execInContainer env = Except.ok (accumOutput env.chunks)
      ↔ (jsIncludes (accumOutput env.chunks) "Error"
          || jsIncludes (accumOutput env.chunks) "error") = false) := by
  unfold execInContainer
  rw [hexec, hstart]
  by_cases h :
      (jsIncludes (accumOutput env.chunks) "Error"
        || jsIncludes (accumOutput env.chunks) "error") = true
  · simp [h]
  · simp [h]

/-- Witness for C6 at concrete inputs: output containing `"error"` rejects,
output containing neither substring resolves. -/
theorem C6_execInContainer_content_detection_witness :
    execInContainer ⟨none, none, [Chunk.str "backup error detected"]⟩
      = Except.error (accumOutput [Chunk.str "backup error detected"])
    ∧ execInContainer ⟨none, none, [Chunk.str "all good"]⟩
      = Except.ok (accumOutput [Chunk.str "all good"]) :=
  ⟨(C6_execInContainer_content_detection
      ⟨none, none, [Chunk.str "backup error detected"]⟩ rfl rfl).1.mpr (by decide),
   (C6_execInContainer_content_detection
      ⟨none, none, [Chunk.str "all good"]⟩ rfl rfl).2.mpr (by decide)⟩

/-- C10: the stream handler appends only chunks that are primitive strings
(`typeof data === 'string'`). When every chunk is a non-string value (such
as a `Buffer`), the accumulated output stays empty, so the error-substring
check sees nothing and the call resolves, whatever the chunks carried. -/
theorem C10_nonstring_chunks_ignored (env : ExecEnv)
    (hexec : env.execErr = none) (hstart : env.startErr = none)
    (hbuf : ∀ c ∈ env.chunks, ∃ s, c = Chunk.buf s) :
    accumOutput env.chunks = "" ∧ execInContainer env = Except.ok "" := by
  have hout : accumOutput env.chunks = "" := accumOutput_all_buf env.chunks hbuf
  refine ⟨hout, ?_⟩
  unfold execInContainer
  rw [hexec, hstart, hout]
  rfl

/-- Witness for C10: a single `Buffer` chunk whose payload contains both
error markers still yields an empty output and a resolved call. -/
theorem C10_nonstring_chunks_ignored_witness :
    accumOutput [Chunk.buf "fatal Error: error"] = ""
    ∧ execInContainer ⟨none, none, [Chunk.buf "fatal Error: error"]⟩ = Except.ok "" :=
  C10_nonstring_chunks_ignored ⟨none, none, [Chunk.buf "fatal Error: error"]⟩ rfl rfl
    (fun c hc => ⟨"fatal Error: error", by simpa using hc⟩)

/-! ### Claims about retention cleanup -/

/-- C2 counterexample: in a directory with candidates `a_1, a_2, a_3`
(newest first) and retention 1, both `a_2` and `a_3` are marked for
deletion; when removing `a_2` fails, the prune attempts only `a_2` — the
older candidate `a_3` is never attempted, contradicting the claim that a
deletion error does not abort the remaining deletions. -/
theorem C2_counterexample :
    ((⟨"a_2", 2⟩ : FileEntry) ∈ filesToDelete 1 [⟨"a_1", 3⟩, ⟨"a_2", 2⟩, ⟨"a_3", 1⟩]
      ∧ (⟨"a_3", 1⟩ : FileEntry) ∈ filesToDelete 1 [⟨"a_1", 3⟩, ⟨"a_2", 2⟩, ⟨"a_3", 1⟩])
    ∧ (cleanupOldBackups (fun n => n == "a_2") 1
        [⟨"a_1", 3⟩, ⟨"a_2", 2⟩, ⟨"a_3", 1⟩]).attempted = [⟨"a_2", 2⟩]
    ∧ (⟨"a_3", 1⟩ : FileEntry) ∉
        (cleanupOldBackups (fun n => n == "a_2") 1
          [⟨"a_1", 3⟩, ⟨"a_2", 2⟩, ⟨"a_3", 1⟩]).attempted := by decide

/-- C2 (amended): the deletion loop attempts the marked candidates in
order and stops at the first failing removal — the attempted deletions are
exactly the candidates up to and including the first failing one (all of
them when none fails); the exception lands in the function-level handler,
so the candidates after the first failing one are not attempted. -/
theorem C2_deletion_stops_at_first_failure (removeFails : String → Bool)
    (retention : Int) (files : List FileEntry) :
    (cleanupOldBackups removeFails retention files).attempted
      = (filesToDelete retention files).take
          ((filesToDelete retention files).findIdx (fun f => removeFails f.name) + 1) := by
  simp only [cleanupOldBackups, filesToDelete]
  by_cases h : ((backupFilesOf files).length : Int) > retention
  · rw [if_pos h, if_pos h]
    exact deleteLoop_attempted removeFails _
  · rw [if_neg h, if_neg h]
    rfl

/-- C3 counterexample: a directory with `N = 3` artifacts of one container
and retention `R = 1` keeps 1 file after pruning, not `N - R = 2` as the
claim states. -/
theorem C3_counterexample :
    (cleanupOldBackups (fun _ => false) 1
        [⟨"b_1", 3⟩, ⟨"b_2", 2⟩, ⟨"b_3", 1⟩]).remaining.length = 1
    ∧ (cleanupOldBackups (fun _ => false) 1
        [⟨"b_1", 3⟩, ⟨"b_2", 2⟩, ⟨"b_3", 1⟩]).remaining.length ≠ 3 - 1 := by decide

/-- C3 (amended): for a directory of `N` artifact files of one container
(all names carry the separator, names and modification times distinct) and
retention `1 ≤ R < N` with no removal failures, after one cleanup run
exactly `R` files remain (`N - R` are deleted), and every kept file is more
recently modified than every file that was removed. -/
theorem C3_prune_keeps_R_most_recent (files : List FileEntry) (R : Nat)
    (hcand : ∀ f ∈ files, jsIncludes f.name "_" = true)
    (hnames : (files.map FileEntry.name).Nodup)
    (hmt : (files.map FileEntry.mtime).Nodup)
    (_hR : 1 ≤ R) (hRN : R < files.length) :
    (cleanupOldBackups (fun _ => false) (R : Int) files).remaining.length = R
    ∧ ∀ f ∈ (cleanupOldBackups (fun _ => false) (R : Int) files).remaining,
        ∀ g ∈ files, g ∉ (cleanupOldBackups (fun _ => false) (R : Int) files).remaining →
          g.mtime < f.mtime := by
  have hfilter : files.filter (fun f => jsIncludes f.name "_") = files :=
    List.filter_eq_self.mpr hcand
  have hSlen : (backupFilesOf files).length = files.length := by
    rw [(backupFilesOf_perm files).length_eq, hfilter]
  have hlen : R < (backupFilesOf files).length := by rw [hSlen]; exact hRN
  have hperm := cleanup_remaining_perm files R hnames hlen
  have hnonnil : files.filter (fun f => !(jsIncludes f.name "_")) = [] := by
    apply List.filter_eq_nil_iff.mpr
    intro a ha
    simp [hcand a ha]
  rw [hnonnil, List.nil_append] at hperm
  constructor
  · rw [hperm.length_eq, List.length_take, hSlen]
    exact min_eq_left (le_of_lt hRN)
  · have hspec := cleanup_exceed_spec files R hnames hlen
    intro f hf g hg hgnot
    rw [hspec] at hf hgnot
    simp only [List.mem_filter, decide_eq_true_eq] at hf
    obtain ⟨hffiles, hfD⟩ := hf
    have hgD : g ∈ (backupFilesOf files).drop R := by
      by_contra hgD
      exact hgnot (List.mem_filter.mpr ⟨hg, by simpa using hgD⟩)
    have hfS : f ∈ backupFilesOf files := by
      apply (backupFilesOf_perm files).mem_iff.mpr
      rw [hfilter]
      exact hffiles
    have hfK : f ∈ (backupFilesOf files).take R := by
      rw [← List.take_append_drop R (backupFilesOf files), List.mem_append] at hfS
      rcases hfS with h | h
      · exact h
      · exact absurd h hfD
    have hpw := backupFilesOf_sorted files
    rw [← List.take_append_drop R (backupFilesOf files), List.pairwise_append] at hpw
    have hle : g.mtime ≤ f.mtime := hpw.2.2 f hfK g hgD
    have hne : g.mtime ≠ f.mtime := by
      intro heq
      have hgf : g = f := List.inj_on_of_nodup_map hmt hg hffiles heq
      rw [hgf] at hgD
      exact hfD hgD
    exact lt_of_le_of_ne hle hne

/-- Witness for C3 (amended): 3 artifacts, retention 2 — exactly 2 remain. -/
theorem C3_prune_keeps_R_most_recent_witness :
    (cleanupOldBackups (fun _ => false) ((2 : Nat) : Int)
        [⟨"w_1", 3⟩, ⟨"w_2", 2⟩, ⟨"w_3", 1⟩]).remaining.length = 2 :=
  (C3_prune_keeps_R_most_recent [⟨"w_1", 3⟩, ⟨"w_2", 2⟩, ⟨"w_3", 1⟩] 2
    (by decide) (by decide) (by decide) (by decide) (by decide)).1

/-- C4: cleanup's candidates are exactly the entries whose name contains
`_` (the sorted candidate list is a permutation of that filter), the sort
is by modification time descending; when the candidate count is within the
retention nothing is touched, and when it exceeds the retention exactly
the candidates beyond index `retention` of the sorted list are deleted, so
the `retention` most recently modified candidates and all non-candidate
entries remain. -/
theorem C4_cleanup_algorithm (files : List FileEntry) (R : Nat)
    (hnames : (files.map FileEntry.name).Nodup) :
    ((backupFilesOf files).Perm (files.filter (fun f => jsIncludes f.name "_"))
      ∧ List.Pairwise (fun a b => b.mtime ≤ a.mtime) (backupFilesOf files))
    ∧ ((backupFilesOf files).length ≤ R →
        cleanupOldBackups (fun _ => false) (R : Int) files = ⟨files, []⟩)
    ∧ (R < (backupFilesOf files).length →
        (cleanupOldBackups (fun _ => false) (R : Int) files).attempted
            = (backupFilesOf files).drop R
        ∧ (cleanupOldBackups (fun _ => false) (R : Int) files).remaining.Perm
            (files.filter (fun f => !(jsIncludes f.name "_"))
              ++ (backupFilesOf files).take R)) := by
  refine ⟨⟨backupFilesOf_perm files, backupFilesOf_sorted files⟩, ?_, ?_⟩
  · intro h
    exact cleanup_noop _ _ _ (by exact_mod_cast h)
  · intro h
    refine ⟨?_, cleanup_remaining_perm files R hnames h⟩
    rw [cleanup_exceed_spec files R hnames h]

/-- Witness for C4: a directory with two candidates, one non-candidate and
retention 1 — the attempted deletions are the sorted candidates beyond
index 1. -/
theorem C4_cleanup_algorithm_witness :
    (cleanupOldBackups (fun _ => false) ((1 : Nat) : Int)
        [⟨"e_1", 3⟩, ⟨"e_2", 2⟩, ⟨"plain", 9⟩]).attempted
      = (backupFilesOf [⟨"e_1", 3⟩, ⟨"e_2", 2⟩, ⟨"plain", 9⟩]).drop 1 :=
  ((C4_cleanup_algorithm [⟨"e_1", 3⟩, ⟨"e_2", 2⟩, ⟨"plain", 9⟩] 1 (by decide)).2.2
    (by decide)).1

/-- C9 counterexample: the claim quantifies over every retention value; at
the reachable retention `-1` (label `retention=-1` parses to `-1`),
JavaScript `slice(-1)` keeps slicing one file off the end of the sorted
list, so a second run deletes again: running twice does not equal running
once. -/
theorem C9_counterexample :
    (cleanupOldBackups (fun _ => false) (-1)
        (cleanupOldBackups (fun _ => false) (-1)
          [⟨"c_1", 3⟩, ⟨"c_2", 2⟩, ⟨"c_3", 1⟩]).remaining).remaining
      ≠ (cleanupOldBackups (fun _ => false) (-1)
          [⟨"c_1", 3⟩, ⟨"c_2", 2⟩, ⟨"c_3", 1⟩]).remaining := by decide

/-- C9 (amended): for every directory with distinct entry names and every
retention `R ≥ 0` (so in particular every valid retention `≥ 1`), with no
removal failures, a second cleanup run right after a first one leaves the
directory unchanged; and when the candidate count is already within the
retention a run deletes nothing at all. -/
theorem C9_cleanup_idempotent (files : List FileEntry) (R : Nat)
    (hnames : (files.map FileEntry.name).Nodup) :
    (cleanupOldBackups (fun _ => false) (R : Int)
        (cleanupOldBackups (fun _ => false) (R : Int) files).remaining).remaining
      = (cleanupOldBackups (fun _ => false) (R : Int) files).remaining
    ∧ ((backupFilesOf files).length ≤ R →
        cleanupOldBackups (fun _ => false) (R : Int) files = ⟨files, []⟩) := by
  constructor
  · rcases le_or_lt (backupFilesOf files).length R with h | h
    · have hno := cleanup_noop (fun _ => false) ((R : Nat) : Int) files (by exact_mod_cast h)
      rw [hno]
      show (cleanupOldBackups (fun _ => false) ((R : Nat) : Int) files).remaining = files
      rw [hno]
    · have hperm := cleanup_remaining_perm files R hnames h
      have honce_len :
          (backupFilesOf
            (cleanupOldBackups (fun _ => false) (R : Int) files).remaining).length ≤ R := by
        rw [(backupFilesOf_perm _).length_eq,
          (hperm.filter (fun f => jsIncludes f.name "_")).length_eq, List.filter_append]
        have h1 : (files.filter (fun f => !(jsIncludes f.name "_"))).filter
            (fun f => jsIncludes f.name "_") = [] := by
          apply List.filter_eq_nil_iff.mpr
          intro a ha
          have := (List.mem_filter.mp ha).2
          simpa using this
        have h2 : ((backupFilesOf files).take R).filter
            (fun f => jsIncludes f.name "_") = (backupFilesOf files).take R := by
          apply List.filter_eq_self.mpr
          intro a ha
          exact (List.mem_filter.mp
            ((backupFilesOf_perm files).subset (List.take_subset R _ ha))).2
        rw [h1, h2, List.nil_append, List.length_take]
        exact min_le_left R _
      have hno := cleanup_noop (fun _ => false) ((R : Nat) : Int)
        (cleanupOldBackups (fun _ => false) ((R : Nat) : Int) files).remaining
        (by exact_mod_cast honce_len)
      rw [hno]
  · intro h
    exact cleanup_noop _ _ _ (by exact_mod_cast h)

/-- Witness for C9 (amended): 3 artifacts and retention 2 — a second run
changes nothing. -/
theorem C9_cleanup_idempotent_witness :
    (cleanupOldBackups (fun _ => false) ((2 : Nat) : Int)
        (cleanupOldBackups (fun _ => false) ((2 : Nat) : Int)
          [⟨"v_1", 3⟩, ⟨"v_2", 2⟩, ⟨"v_3", 1⟩]).remaining).remaining
      = (cleanupOldBackups (fun _ => false) ((2 : Nat) : Int)
          [⟨"v_1", 3⟩, ⟨"v_2", 2⟩, ⟨"v_3", 1⟩]).remaining :=
  (C9_cleanup_idempotent [⟨"v_1", 3⟩, ⟨"v_2", 2⟩, ⟨"v_3", 1⟩] 2 (by decide)).1

/-! ### Claims about the backup pipeline -/

/-- C7: in `executeBackup`, the returned boolean is `true` exactly when all
present steps (pre-command, main command, extraction, post-command)
succeed; `cleanupOldBackups` runs exactly in that case; and a failure of
any step returns `false` with no later step of the sequence attempted and
no cleanup invoked. -/
theorem C7_executeBackup_pipeline (config : BackupConfig) (env : BackupEnv) :
    ((executeBackup config env).2 = true ↔ stepsAllOk config env = true)
    ∧ (Step.cleanup ∈ (executeBackup config env).1 ↔ stepsAllOk config env = true)
    ∧ ((jsTruthy config.preCommand && !execOk env.preEnv) = true →
        (executeBackup config env).2 = false
        ∧ Step.main ∉ (executeBackup config env).1
        ∧ Step.copy ∉ (executeBackup config env).1
        ∧ Step.post ∉ (executeBackup config env).1
        ∧ Step.cleanup ∉ (executeBackup config env).1)
    ∧ ((jsTruthy config.preCommand && !execOk env.preEnv) = false →
        (jsTruthy config.command && !execOk env.mainEnv) = true →
        (executeBackup config env).2 = false
        ∧ Step.copy ∉ (executeBackup config env).1
        ∧ Step.post ∉ (executeBackup config env).1
        ∧ Step.cleanup ∉ (executeBackup config env).1)
    ∧ ((jsTruthy config.preCommand && !execOk env.preEnv) = false →
        (jsTruthy config.command && !execOk env.mainEnv) = false →
        env.copyOk = false →
        (executeBackup config env).2 = false
        ∧ Step.post ∉ (executeBackup config env).1
        ∧ Step.cleanup ∉ (executeBackup config env).1)
    ∧ ((jsTruthy config.preCommand && !execOk env.preEnv) = false →
        (jsTruthy config.command && !execOk env.mainEnv) = false →
        env.copyOk = true →
        (jsTruthy config.postCommand && !execOk env.postEnv) = true →
        (executeBackup config env).2 = false
        ∧ Step.cleanup ∉ (executeBackup config env).1) := by
  cases hpre : jsTruthy config.preCommand <;>
    cases hpok : execOk env.preEnv <;>
      cases hcmd : jsTruthy config.command <;>
        cases hmok : execOk env.mainEnv <;>
          cases hcopy : env.copyOk <;>
            cases hpost : jsTruthy config.postCommand <;>
              cases hpook : execOk env.postEnv <;>
                simp [executeBackup, stepsAllOk, hpre, hpok, hcmd, hmok, hcopy,
                  hpost, hpook]

/-- Witness for C7: a run whose pre-command emits `"error"` returns
`false` with no main, copy, post or cleanup step attempted. -/
theorem C7_executeBackup_pipeline_witness :
    (executeBackup
        ⟨"cid", "db", true, some "dump", "/tmp/backup", none, some 7, some "prep", none⟩
        ⟨⟨none, none, [Chunk.str "error"]⟩, ⟨none, none, []⟩, true, ⟨none, none, []⟩⟩).2 = false
    ∧ Step.main ∉ (executeBackup
        ⟨"cid", "db", true, some "dump", "/tmp/backup", none, some 7, some "prep", none⟩
        ⟨⟨none, none, [Chunk.str "error"]⟩, ⟨none, none, []⟩, true, ⟨none, none, []⟩⟩).1
    ∧ Step.copy ∉ (executeBackup
        ⟨"cid", "db", true, some "dump", "/tmp/backup", none, some 7, some "prep", none⟩
        ⟨⟨none, none, [Chunk.str "error"]⟩, ⟨none, none, []⟩, true, ⟨none, none, []⟩⟩).1
    ∧ Step.post ∉ (executeBackup
        ⟨"cid", "db", true, some "dump", "/tmp/backup", none, some 7, some "prep", none⟩
        ⟨⟨none, none, [Chunk.str "error"]⟩, ⟨none, none, []⟩, true, ⟨none, none, []⟩⟩).1
    ∧ Step.cleanup ∉ (executeBackup
        ⟨"cid", "db", true, some "dump", "/tmp/backup", none, some 7, some "prep", none⟩
        ⟨⟨none, none, [Chunk.str "error"]⟩, ⟨none, none, []⟩, true, ⟨none, none, []⟩⟩).1 :=
  (C7_executeBackup_pipeline
      ⟨"cid", "db", true, some "dump", "/tmp/backup", none, some 7, some "prep", none⟩
      ⟨⟨none, none, [Chunk.str "error"]⟩, ⟨none, none, []⟩, true,
        ⟨none, none, []⟩⟩).2.2.1 (by decide)

/-- The host directory creation precedes the `try` block, so every
`executeBackup` call records it. -/
theorem ensureDir_mem_executeBackup (config : BackupConfig) (env : BackupEnv) :
    Step.ensureDir ∈ (executeBackup config env).1 := by
  unfold executeBackup
  split_ifs <;> simp

/-- Closed form of one `runBackups` tick: the outcome lists exactly the
processed containers (enabled with a truthy command), in order. -/
theorem runBackups_spec (labelPfx : String) (envOf : ContainerInfo → BackupEnv)
    (containers : List ContainerInfo) :
    runBackups labelPfx envOf containers =
      { results := (containers.filter (processed labelPfx)).map
          (fun c => ((extractBackupConfig labelPfx c).containerName,
            (executeBackup (extractBackupConfig labelPfx c) (envOf c)).2))
        invoked := (containers.filter (processed labelPfx)).map
          (fun c => (extractBackupConfig labelPfx c).containerName)
        dirsCreated := (containers.filter (processed labelPfx)).map
          (fun c => (extractBackupConfig labelPfx c).containerName) } := by
  have general : ∀ (l : List ContainerInfo) (acc : RunOutcome),
      l.foldl (runBackupsStep labelPfx envOf) acc =
        { results := acc.results ++ (l.filter (processed labelPfx)).map
            (fun c => ((extractBackupConfig labelPfx c).containerName,
              (executeBackup (extractBackupConfig labelPfx c) (envOf c)).2))
          invoked := acc.invoked ++ (l.filter (processed labelPfx)).map
            (fun c => (extractBackupConfig labelPfx c).containerName)
          dirsCreated := acc.dirsCreated ++ (l.filter (processed labelPfx)).map
            (fun c => (extractBackupConfig labelPfx c).containerName) } := by
    intro l
    induction l with
    | nil => intro acc; simp
    | cons c rest ih =>
      intro acc
      by_cases h1 : (extractBackupConfig labelPfx c).enabled
      · by_cases h2 : jsTruthy (extractBackupConfig labelPfx c).command
        · rw [List.foldl_cons, ih]
          simp [runBackupsStep, processed, h1, h2, ensureDir_mem_executeBackup]
        · rw [List.foldl_cons, ih]
          simp [runBackupsStep, processed, h1, h2]
      · rw [List.foldl_cons, ih]
        simp [runBackupsStep, processed, h1]
  rw [runBackups, general]
  simp

/-- C8: a discovered container whose extracted config is disabled or has
no (truthy) command is skipped by `runBackups`: `executeBackup` is never
invoked for it, no host directory is created for it, and its name appears
in the results neither as successful nor as failed (container names are
distinct per run, per the stated invariant). -/
theorem C8_runBackups_skips_disabled (labelPfx : String)
    (envOf : ContainerInfo → BackupEnv) (containers : List ContainerInfo)
    (container : ContainerInfo) (hmem : container ∈ containers)
    (hskip : (extractBackupConfig labelPfx container).enabled = false
      ∨ jsTruthy (extractBackupConfig labelPfx container).command = false)
    (hnames : (containers.map
      (fun c => (extractBackupConfig labelPfx c).containerName)).Nodup) :
    (extractBackupConfig labelPfx container).containerName
        ∉ (runBackups labelPfx envOf containers).invoked
    ∧ (extractBackupConfig labelPfx container).containerName
        ∉ (runBackups labelPfx envOf containers).dirsCreated
    ∧ ∀ b : Bool, ((extractBackupConfig labelPfx container).containerName, b)
        ∉ (runBackups labelPfx envOf containers).results := by
  have hproc : processed labelPfx container = false := by
    unfold processed
    rcases hskip with h | h <;> simp [h]
  have key : ∀ c ∈ containers.filter (processed labelPfx),
      (extractBackupConfig labelPfx c).containerName
        ≠ (extractBackupConfig labelPfx container).containerName := by
    intro c hc heq
    have hcmem : c ∈ containers := List.mem_of_mem_filter hc
    have hcproc : processed labelPfx c = true := List.of_mem_filter hc
    have hceq : c = container := List.inj_on_of_nodup_map hnames hcmem hmem heq
    rw [hceq, hproc] at hcproc
    exact Bool.false_ne_true hcproc
  rw [runBackups_spec]
  refine ⟨?_, ?_, ?_⟩
  · intro hbad
    simp only [List.mem_map] at hbad
    obtain ⟨c, hc, hceq⟩ := hbad
    exact key c hc hceq
  · intro hbad
    simp only [List.mem_map] at hbad
    obtain ⟨c, hc, hceq⟩ := hbad
    exact key c hc hceq
  · intro b hbad
    simp only [List.mem_map] at hbad
    obtain ⟨c, hc, hceq⟩ := hbad
    exact key c hc (congrArg Prod.fst hceq)

/-- Witness for C8: of two discovered containers, the second is enabled
but carries no command label — its name is absent from the invocation
list, the created directories, and the results (as success or failure). -/
theorem C8_runBackups_skips_disabled_witness :
    (extractBackupConfig "p" ⟨"c2", ["/b"], [("p.backup", "true")]⟩).containerName
        ∉ (runBackups "p"
            (fun _ => ⟨⟨none, none, []⟩, ⟨none, none, []⟩, true, ⟨none, none, []⟩⟩)
            [⟨"c1", ["/a"], [("p.backup", "true"), ("p.command", "x")]⟩,
              ⟨"c2", ["/b"], [("p.backup", "true")]⟩]).invoked
    ∧ (extractBackupConfig "p" ⟨"c2", ["/b"], [("p.backup", "true")]⟩).containerName
        ∉ (runBackups "p"
            (fun _ => ⟨⟨none, none, []⟩, ⟨none, none, []⟩, true, ⟨none, none, []⟩⟩)
            [⟨"c1", ["/a"], [("p.backup", "true"), ("p.command", "x")]⟩,
              ⟨"c2", ["/b"], [("p.backup", "true")]⟩]).dirsCreated
    ∧ ((extractBackupConfig "p" ⟨"c2", ["/b"], [("p.backup", "true")]⟩).containerName, true)
        ∉ (runBackups "p"
            (fun _ => ⟨⟨none, none, []⟩, ⟨none, none, []⟩, true, ⟨none, none, []⟩⟩)
            [⟨"c1", ["/a"], [("p.backup", "true"), ("p.command", "x")]⟩,
              ⟨"c2", ["/b"], [("p.backup", "true")]⟩]).results
    ∧ ((extractBackupConfig "p" ⟨"c2", ["/b"], [("p.backup", "true")]⟩).containerName, false)
        ∉ (runBackups "p"
            (fun _ => ⟨⟨none, none, []⟩, ⟨none, none, []⟩, true, ⟨none, none, []⟩⟩)
            [⟨"c1", ["/a"], [("p.backup", "true"), ("p.command", "x")]⟩,
              ⟨"c2", ["/b"], [("p.backup", "true")]⟩]).results :=
  ⟨(C8_runBackups_skips_disabled "p"
      (fun _ => ⟨⟨none, none, []⟩, ⟨none, none, []⟩, true, ⟨none, none, []⟩⟩)
      [⟨"c1", ["/a"], [("p.backup", "true"), ("p.command", "x")]⟩,
        ⟨"c2", ["/b"], [("p.backup", "true")]⟩]
      ⟨"c2", ["/b"], [("p.backup", "true")]⟩
      (by decide) (Or.inr (by decide)) (by decide)).1,
    (C8_runBackups_skips_disabled "p"
      (fun _ => ⟨⟨none, none, []⟩, ⟨none, none, []⟩, true, ⟨none, none, []⟩⟩)
      [⟨"c1", ["/a"], [("p.backup", "true"), ("p.command", "x")]⟩,
        ⟨"c2", ["/b"], [("p.backup", "true")]⟩]
      ⟨"c2", ["/b"], [("p.backup", "true")]⟩
      (by decide) (Or.inr (by decide)) (by decide)).2.1,
    (C8_runBackups_skips_disabled "p"
      (fun _ => ⟨⟨none, none, []⟩, ⟨none, none, []⟩, true, ⟨none, none, []⟩⟩)
      [⟨"c1", ["/a"], [("p.backup", "true"), ("p.command", "x")]⟩,
        ⟨"c2", ["/b"], [("p.backup", "true")]⟩]
      ⟨"c2", ["/b"], [("p.backup", "true")]⟩
      (by decide) (Or.inr (by decide)) (by decide)).2.2 true,
    (C8_runBackups_skips_disabled "p"
      (fun _ => ⟨⟨none, none, []⟩, ⟨none, none, []⟩, true, ⟨none, none, []⟩⟩)
      [⟨"c1", ["/a"], [("p.backup", "true"), ("p.command", "x")]⟩,
        ⟨"c2", ["/b"], [("p.backup", "true")]⟩]
      ⟨"c2", ["/b"], [("p.backup", "true")]⟩
      (by decide) (Or.inr (by decide)) (by decide)).2.2 false⟩

end DockerBackupTool
